import Mathlib

/-
Verification of the transcript-correction / SOAP-extraction pipeline
(src/pipeline/gemini_llm.py) against its natural-language specification.

The Python functions are shallowly embedded as executable Lean functions on
`String` / `List Char`.  The generative-model collaborator is abstracted as an
oracle `Nat → OracleResult` giving, for each retry attempt, either a raised
transport exception or a response text; everything else is translated directly
from the source.  Python exceptions that the source catches locally are
resolved in the translation exactly along the source's `try/except` structure;
exceptions that escape a function are surfaced in an `Except` result type.
All character-level operations model Python's behaviour on ASCII text (the
only text the pipeline's fixed vocabulary and validators inspect).
-/

namespace Scribe

/-- Python whitespace, as used by `str.split`, `str.strip` and `re`'s `\s`
(ASCII range): space, tab, newline, carriage return, vertical tab, form feed. -/
def pyIsSpace (c : Char) : Bool :=
  c == ' ' || c == '\t' || c == '\n' || c == '\r' || c == '\x0b' || c == '\x0c'

/-- Lowercase a character list (models `str.lower` on ASCII text). -/
def lowerL (l : List Char) : List Char := l.map Char.toLower

/-- Strip leading and trailing Python whitespace from a character list. -/
def stripL (l : List Char) : List Char :=
  ((l.dropWhile pyIsSpace).reverse.dropWhile pyIsSpace).reverse

/-- Models Python `str.strip()`. -/
def pyStrip (s : String) : String := String.mk (stripL s.data)

/-- Models Python `str.lower()` (ASCII). -/
def lowerStr (s : String) : String := String.mk (lowerL s.data)

/-- Maximal runs of characters satisfying `keep`, left to right; the second
argument accumulates the current (reversed) run. -/
def runsAux (keep : Char → Bool) : List Char → List Char → List (List Char)
  | [], acc => if acc.isEmpty then [] else [acc.reverse]
  | c :: cs, acc =>
    if keep c then runsAux keep cs (c :: acc)
    else if acc.isEmpty then runsAux keep cs acc
    else acc.reverse :: runsAux keep cs []

/-- Models Python `str.split()` with no argument: maximal runs of
non-whitespace characters. -/
def pySplitWs (s : String) : List String :=
  (runsAux (fun c => !pyIsSpace c) s.data []).map String.mk

/-- Models `' '.join(transcript.split())` (gemini_llm.py line 172). -/
def collapseWs (s : String) : String := String.intercalate " " (pySplitWs s)

/-- Is there an occurrence of `pat` at the head of the list?  If so, return
what follows it.  Used to model substring search. -/
def afterPat (pat l : List Char) : Option (List Char) :=
  if pat.isPrefixOf l then some (l.drop pat.length) else none

/-- First occurrence of `pat`: returns (characters before it, characters after
it).  `splitFirstL [] l = some ([], l)`, matching Python's empty-pattern
semantics. -/
def splitFirstL (pat : List Char) : List Char → Option (List Char × List Char)
  | [] => if pat.isEmpty then some ([], []) else none
  | c :: cs =>
    if pat.isPrefixOf (c :: cs) then some ([], (c :: cs).drop pat.length)
    else
      match splitFirstL pat cs with
      | some (pre, post) => some (c :: pre, post)
      | none => none

/-- Models Python's substring test `needle in hay`. -/
def containsSub (needle hay : String) : Bool :=
  (splitFirstL needle.data hay.data).isSome

/-- Fuel-driven count of non-overlapping occurrences of `pat` (Python
`str.count`).  Fuel `hay.length` always suffices since every step consumes at
least one character of a nonempty haystack. -/
def countSubFuel (pat : List Char) : Nat → List Char → Nat
  | 0, _ => 0
  | _ + 1, [] => 0
  | fuel + 1, c :: cs =>
    if pat.isPrefixOf (c :: cs) then
      countSubFuel pat fuel ((c :: cs).drop pat.length) + 1
    else countSubFuel pat fuel cs

/-- Models Python `hay.count(needle)` for a nonempty needle. -/
def countSub (needle hay : String) : Nat :=
  countSubFuel needle.data hay.data.length hay.data

/-- Fuel-driven case-insensitive replace-all of the (already lowercase)
pattern `pat` by `repl` (models
`re.compile(re.escape(error), re.IGNORECASE).sub(correct, transcript)`,
gemini_llm.py lines 190-191: non-overlapping, left to right, each matched
window replaced by the literal replacement).  Fuel `l.length` suffices. -/
def ciReplaceFuel (pat repl : List Char) : Nat → List Char → List Char
  | 0, l => l
  | _ + 1, [] => []
  | fuel + 1, c :: cs =>
    if lowerL ((c :: cs).take pat.length) = pat then
      repl ++ ciReplaceFuel pat repl fuel ((c :: cs).drop pat.length)
    else c :: ciReplaceFuel pat repl fuel cs

/-- Case-insensitive replace-all on strings. -/
def ciReplaceAll (errPat replS s : String) : String :=
  String.mk (ciReplaceFuel errPat.data replS.data s.data.length s.data)

/-- The fixed ASR-error vocabulary of `preprocess_transcript`
(gemini_llm.py lines 175-183), in Python dict insertion order. -/
def medical_corrections : List (String × List String) := [
  ("hypertension", ["high pertension", "hyper tension"]),
  ("diabetes mellitus", ["diabete smellitus", "diabetus", "diabetes mellitas"]),
  ("myocardial infarction", ["myocardial in fraction"]),
  ("prescription", ["perscription"]),
  ("medication", ["mediction"]),
  ("symptoms", ["symptom", "simptoms"]),
  ("diagnosis", ["diagnoses", "diagnosys"])
]

/-- Embedding of `preprocess_transcript` (gemini_llm.py lines 162-193).
Empty/whitespace-only input is returned unchanged; otherwise whitespace is
collapsed and each known error phrase that occurs in the lowercased collapsed
text (the guard uses the lowercase snapshot taken once, before any
replacement, exactly as `transcript_lower` in the source) is replaced
case-insensitively. -/
def preprocess_transcript (transcript : String) : String :=
  if pyStrip transcript = "" then transcript
  else
    let t1 := collapseWs transcript
    let tl := lowerStr t1
    medical_corrections.foldl
      (fun t cor =>
        cor.2.foldl
          (fun t err => if containsSub err tl then ciReplaceAll err cor.1 t else t)
          t)
      t1

/-- Embedding of `validate_speaker_labels` (gemini_llm.py lines 196-221).
Note the first gate tests only the exact substrings `Doctor:`/`doctor:` and
`Patient:`/`patient:`, while the counts are case-insensitive. -/
def validate_speaker_labels (transcript : String) : Bool :=
  if pyStrip transcript = "" then false
  else
    let has_doctor := containsSub "Doctor:" transcript || containsSub "doctor:" transcript
    let has_patient := containsSub "Patient:" transcript || containsSub "patient:" transcript
    if !(has_doctor || has_patient) then false
    else
      if countSub "doctor:" (lowerStr transcript) = 0
          || countSub "patient:" (lowerStr transcript) = 0 then false
      else true

/-- Python `re`'s word character, ASCII range: letters, digits, underscore. -/
def isWordChar (c : Char) : Bool := c.isAlphanum || c == '_'

/-- Embedding of `re.findall(r'\b\w+\b', s.lower())` (gemini_llm.py lines
230-231): the maximal runs of word characters of the lowercased text. -/
def tokenize (s : String) : List String :=
  (runsAux isWordChar (lowerL s.data) []).map String.mk

/-- Embedding of `validate_correction` (gemini_llm.py lines 224-240).  The
source returns `(ok, message)` where the message renders the two Python sets
`set(orig) - set(corr)` and `set(corr) - set(orig)`; we model the message by
those two sets themselves (as deduplicated lists), which is the only content
of the diagnostic. -/
def validate_correction (original corrected : String) : Bool × List String × List String :=
  let ow := tokenize original
  let cw := tokenize corrected
  if ow = cw then (true, [], [])
  else
    (false,
     (ow.filter (fun w => decide (w ∉ cw))).dedup,
     (cw.filter (fun w => decide (w ∉ ow))).dedup)

/-- The fenced-interior semantics of
`re.search(r'```json\s*(.*?)\s*```', text, re.DOTALL)` followed by
`.group(1).strip()` (gemini_llm.py lines 253-255): the match anchors at the
first occurrence of the fence opener and the lazy group ends at the first
subsequent occurrence of three backticks, so the stripped group is exactly the
text between those two markers, stripped (the surrounding `\s*` of the
pattern only shifts whitespace that `.strip()` removes anyway).  Returns
`none` when the pattern does not match (no opener, or no closing fence after
it), in which case the source leaves the text unchanged. -/
def fenceInteriorJson (s : String) : Option String :=
  match splitFirstL "```json".data s.data with
  | none => none
  | some (_, rest) =>
    match splitFirstL "```".data rest with
    | none => none
    | some (pre, _) => some (String.mk pre)

/-- Models Python `str.splitlines()` on the line breaks that occur in this
pipeline's data: `\r\n`, `\r`, `\n`; no trailing empty line. -/
def pySplitlinesL : List Char → List Char → List (List Char)
  | [], acc => if acc.isEmpty then [] else [acc.reverse]
  | '\r' :: '\n' :: cs, acc => acc.reverse :: pySplitlinesL cs []
  | '\r' :: cs, acc => acc.reverse :: pySplitlinesL cs []
  | '\n' :: cs, acc => acc.reverse :: pySplitlinesL cs []
  | c :: cs, acc => pySplitlinesL cs (c :: acc)

/-- Generic code-fence stripping branch of `clean_json_response`
(gemini_llm.py lines 256-263): drop the first line if it starts with three
backticks, drop the last line if it strips to three backticks, rejoin with
newlines, strip. -/
def stripGenericFence (t : String) : String :=
  let ls := pySplitlinesL t.data []
  let ls1 :=
    match ls with
    | [] => []
    | l0 :: rest => if List.isPrefixOf "```".data l0 then rest else l0 :: rest
  let ls2 :=
    match ls1.getLast? with
    | some last => if stripL last = "```".data then ls1.dropLast else ls1
    | none => ls1
  pyStrip (String.mk (List.intercalate "\n".data ls2))

/-- Suffix of the list starting at its first opening brace, if any. -/
def dropToBrace : List Char → Option (List Char)
  | [] => none
  | c :: cs => if c = '\x7b' then some (c :: cs) else dropToBrace cs

/-- Suffix of the list starting at its first closing brace, if any (applied
to a reversed list to locate the last closing brace). -/
def dropToCloseRev : List Char → Option (List Char)
  | [] => none
  | c :: cs => if c = '\x7d' then some (c :: cs) else dropToCloseRev cs

/-- The span matched by `re.search(r'\{.*\}', text, re.DOTALL)`
(gemini_llm.py line 266): from the first opening brace to the last closing
brace after it (leftmost match, greedy interior). -/
def braceSpan (l : List Char) : Option (List Char) :=
  match dropToBrace l with
  | none => none
  | some [] => none
  | some (b :: rest) =>
    match dropToCloseRev rest.reverse with
    | none => none
    | some revp => some (b :: revp.reverse)

/-- Fence-stripping stage of `clean_json_response` (gemini_llm.py lines
248-263), applied to the stripped input: the tagged-fence branch, the
generic-fence branch, or the text unchanged. -/
def cleanStage1 (t : String) : String :=
  if containsSub "```json" t then
    match fenceInteriorJson t with
    | some g => pyStrip g
    | none => t
  else if List.isPrefixOf "```".data t.data then stripGenericFence t
  else t

/-- Embedding of `clean_json_response` (gemini_llm.py lines 243-270): strip,
remove fence wrapping, then extract the brace-delimited span if one
exists. -/
def clean_json_response (text : String) : String :=
  match braceSpan (cleanStage1 (pyStrip text)).data with
  | some sp => String.mk sp
  | none => cleanStage1 (pyStrip text)

/-- One retry attempt's view of the model collaborator: a raised transport
exception, or a response whose text is `s` (an empty `s` models
`not response.text`, gemini_llm.py line 355). -/
inductive OracleResult where
  | exn
  | resp (s : String)

/-- Add one model call to an attempt-loop outcome. -/
def addCall {α : Type} : Except Nat (α × Nat) → Except Nat (α × Nat)
  | Except.ok (r, n) => Except.ok (r, n + 1)
  | Except.error n => Except.error (n + 1)

/-- Post-processing of a raw diarization response (gemini_llm.py line 363):
the markdown-cleaning step runs only when the stripped response visibly
contains a fence. -/
def cleanIfFenced (c : String) : String :=
  if containsSub "```" c then clean_json_response c else c

/-- The retry loop of `correct_diarization` (gemini_llm.py lines 344-389),
one list entry per remaining attempt.  A value `Except.error n` models the
`raise` on the final attempt (line 385) escaping the loop after `n` model
calls; `Except.ok (r, n)` is a `return r` from inside the loop, or the
fall-through return of the original transcript when every attempt was an
empty response (lines 388-389). -/
def cdAttempts (oracle : Nat → OracleResult) (t orig : String) :
    List Nat → Except Nat (String × Nat)
  | [] => Except.ok (orig, 0)
  | a :: rest =>
    match oracle a with
    | OracleResult.exn =>
      if rest.isEmpty then Except.error 1
      else addCall (cdAttempts oracle t orig rest)
    | OracleResult.resp s =>
      if s = "" then addCall (cdAttempts oracle t orig rest)
      else
        let c := cleanIfFenced (pyStrip s)
        if (validate_correction t c).1 then Except.ok (c, 1)
        else Except.ok (orig, 1)

/-- Embedding of `correct_diarization` (gemini_llm.py lines 308-393),
returning the corrected (or fallback) transcript together with the number of
model calls made.  The outer `try/except` (lines 342, 391-393) maps an
exception escaping the retry loop to the original transcript.  (The
diarization prompt template contains no literal braces besides the
`transcript` placeholder, so its `.format` call at line 337 succeeds.) -/
def correct_diarization (oracle : Nat → OracleResult) (transcript : String) :
    String × Nat :=
  if pyStrip transcript = "" then (transcript, 0)
  else if validate_speaker_labels transcript = true then
    match cdAttempts oracle (preprocess_transcript transcript) transcript [0, 1] with
    | Except.ok r => r
    | Except.error n => (transcript, n)
  else (transcript, 0)

/-- JSON values as produced by Python `json.loads` (numbers restricted to the
integers; the pipeline never computes with numeric payloads). -/
inductive JVal where
  | jnull
  | jbool (b : Bool)
  | jnum (n : Int)
  | jstr (s : String)
  | jarr (xs : List JVal)
  | jobj (fields : List (String × JVal))

/-- A Python dict with string keys, as an association list in insertion
order; all operations use first-occurrence semantics, matching a dict's
unique keys. -/
abbrev SoapDict : Type := List (String × JVal)

/-- Models `key in d` / `d[key]`. -/
def dictGet : SoapDict → String → Option JVal
  | [], _ => none
  | (k0, v0) :: rest, k => if k0 = k then some v0 else dictGet rest k

/-- Models `d[key] = v`: replace in place if the key exists, else append. -/
def dictSet : SoapDict → String → JVal → SoapDict
  | [], k, v => [(k, v)]
  | (k0, v0) :: rest, k, v =>
    if k0 = k then (k, v) :: rest else (k0, v0) :: dictSet rest k v

/-- The four required SOAP keys, in the fixed order of
`required_keys` (gemini_llm.py line 278). -/
def required_keys : List String := ["Subjective", "Objective", "Assessment", "Plan"]

/-- Embedding of `_empty_soap_note` (gemini_llm.py lines 491-498). -/
def _empty_soap_note : SoapDict :=
  required_keys.map (fun k => (k, JVal.jstr "Not discussed"))

/-- The value test of the second repair loop of `validate_soap_json`
(gemini_llm.py lines 287-294): a value is kept iff it is a string that is
non-empty after stripping (a falsy or non-string value, or a
whitespace-only string, fails) and whose stripped lowercase form is not one
of the placeholders `n/a`, `na`, `none`. -/
def soapValueOk (v : JVal) : Bool :=
  match v with
  | JVal.jstr s =>
    let st := stripL s.data
    !st.isEmpty &&
      !(lowerL st == "n/a".data || lowerL st == "na".data || lowerL st == "none".data)
  | _ => false

/-- First repair loop of `validate_soap_json` (lines 281-284): insert the
sentinel when the key is absent. -/
def soapFill (d : SoapDict) (k : String) : SoapDict :=
  match dictGet d k with
  | none => dictSet d k (JVal.jstr "Not discussed")
  | some _ => d

/-- Second repair loop of `validate_soap_json` (lines 287-294): replace an
empty, non-string or placeholder value by the sentinel.  (The key is always
present here; the `none` branch is unreachable.) -/
def soapRepair (d : SoapDict) (k : String) : SoapDict :=
  match dictGet d k with
  | some v => if soapValueOk v then d else dictSet d k (JVal.jstr "Not discussed")
  | none => d

/-- Embedding of `validate_soap_json` (gemini_llm.py lines 273-301).  The
third loop of the source only logs a short-content advisory and never
modifies the dict; the function always returns `is_valid = true`. -/
def validate_soap_json (soap : SoapDict) : Bool × SoapDict :=
  (true, required_keys.foldl soapRepair (required_keys.foldl soapFill soap))

/-- Number of the four required keys absent from a candidate dict. -/
def missingCount (d : SoapDict) : Nat :=
  (required_keys.filter (fun k => (dictGet d k).isNone)).length

/-- The value `validate_soap_json` leaves under a required key, as a function
of what the candidate held there: sentinel when absent, sentinel when the
value fails `soapValueOk`, otherwise the value unchanged. -/
def repairedValue : Option JVal → JVal
  | none => JVal.jstr "Not discussed"
  | some v => if soapValueOk v then v else JVal.jstr "Not discussed"

/-- Capture of `takeUntilQuote`: the characters before the next double quote
and the characters after it (the regex class `[^"]*` followed by `"`). -/
def takeUntilQuote : List Char → Option (List Char × List Char)
  | [] => none
  | c :: cs =>
    if c = '"' then some ([], cs)
    else
      match takeUntilQuote cs with
      | some (pre, rest) => some (c :: pre, rest)
      | none => none

/-- Does the salvage pattern `"<section>"\s*:\s*"([^"]*)"` match at the head
of `l`?  If so, return the captured group. -/
def matchSalvageAt (sec : String) (l : List Char) : Option String :=
  match afterPat ('"' :: (sec.data ++ ['"'])) l with
  | none => none
  | some r1 =>
    match r1.dropWhile pyIsSpace with
    | ':' :: r2 =>
      match r2.dropWhile pyIsSpace with
      | '"' :: r3 => (takeUntilQuote r3).map (fun p => String.mk p.1)
      | _ => none
    | _ => none

/-- Leftmost match of the salvage pattern (models
`re.search(rf'"{section}"\s*:\s*"([^"]*)"', text, re.DOTALL)`,
gemini_llm.py lines 514-515). -/
def salvageScan (sec : String) : List Char → Option String
  | [] => none
  | c :: cs =>
    match matchSalvageAt sec (c :: cs) with
    | some v => some v
    | none => salvageScan sec cs

/-- Embedding of `_salvage_json` (gemini_llm.py lines 501-528): for each of
the four sections, the first regex capture if the pattern matches, else the
sentinel.  The `try` body cannot raise, so the source's `None` branch (only
reachable through an exception) never occurs: the result is always a
four-key dict. -/
def _salvage_json (text : String) : Option SoapDict :=
  some (required_keys.map
    (fun sec => (sec, JVal.jstr ((salvageScan sec text.data).getD "Not discussed"))))

/-- JSON whitespace accepted between tokens by Python's `json` module. -/
def jsonWs (c : Char) : Bool := c == ' ' || c == '\t' || c == '\n' || c == '\r'

/-- Parse a JSON string body (after the opening quote), decoding the
single-character escapes; `\uXXXX` escapes are not modelled (none of the
pipeline's concrete payloads contain them).  Fuel `l.length + 1` suffices. -/
def parseJStr : Nat → List Char → Option (List Char × List Char)
  | 0, _ => none
  | _ + 1, [] => none
  | fuel + 1, c :: cs =>
    if c = '"' then some ([], cs)
    else if c = '\\' then
      match cs with
      | [] => none
      | e :: cs2 =>
        let dec : Option Char :=
          if e = '"' then some '"'
          else if e = '\\' then some '\\'
          else if e = '/' then some '/'
          else if e = 'n' then some '\n'
          else if e = 't' then some '\t'
          else if e = 'r' then some '\r'
          else if e = 'b' then some '\x08'
          else if e = 'f' then some '\x0c'
          else none
        match dec with
        | none => none
        | some d =>
          match parseJStr fuel cs2 with
          | some (out, rest) => some (d :: out, rest)
          | none => none
    else
      match parseJStr fuel cs with
      | some (out, rest) => some (c :: out, rest)
      | none => none

/-- Accumulate a run of decimal digits. -/
def digitsVal : List Char → Nat → Nat × List Char
  | [], acc => (acc, [])
  | c :: cs, acc =>
    if c.isDigit then digitsVal cs (acc * 10 + (c.toNat - 48)) else (acc, c :: cs)

/-- Parse a JSON integer (optional minus sign, digit run); a following
fraction or exponent marker is not modelled and yields a parse failure
(no concrete payload in this development carries non-integer numbers). -/
def parseJNum (l : List Char) : Option (Int × List Char) :=
  let sgn := match l with
             | '-' :: rest => (true, rest)
             | _ => (false, l)
  match sgn.2 with
  | [] => none
  | c :: _ =>
    if c.isDigit then
      let dv := digitsVal sgn.2 0
      match dv.2 with
      | '.' :: _ => none
      | 'e' :: _ => none
      | 'E' :: _ => none
      | _ => some (if sgn.1 then -(dv.1 : Int) else (dv.1 : Int), dv.2)
    else none

/-- Python-dict construction of an object member list processed left to
right: a duplicate key keeps the position of its first occurrence and the
value of its last. -/
def pyDictConsFront (k : String) (v : JVal) (fs : List (String × JVal)) :
    List (String × JVal) :=
  match dictGet fs k with
  | some v2 => (k, v2) :: fs.filter (fun p => !(p.1 == k))
  | none => (k, v) :: fs

/-- Parser mode: a value, the body of an object (just after the opening
brace, or just after a comma), or the body of an array. -/
inductive PMode where
  | pval
  | pobjFirst
  | pobjMember
  | parrFirst
  | parrMember

/-- Parser result carrier for the three modes. -/
inductive PRes where
  | rval (v : JVal)
  | robj (fs : List (String × JVal))
  | rarr (vs : List JVal)

/-- Fuel-driven recursive-descent parser for the JSON fragment accepted by
Python's `json.loads`; every recursive call decreases the fuel and consumes
input, so fuel `input.length + 2` always suffices. -/
def parseJ : Nat → PMode → List Char → Option (PRes × List Char)
  | 0, _, _ => none
  | fuel + 1, PMode.pval, l =>
    match l.dropWhile jsonWs with
    | [] => none
    | c :: cs =>
      if c = '"' then
        match parseJStr (cs.length + 1) cs with
        | some (content, rest) => some (PRes.rval (JVal.jstr (String.mk content)), rest)
        | none => none
      else if c = 't' then
        if List.isPrefixOf ['r', 'u', 'e'] cs then
          some (PRes.rval (JVal.jbool true), cs.drop 3)
        else none
      else if c = 'f' then
        if List.isPrefixOf ['a', 'l', 's', 'e'] cs then
          some (PRes.rval (JVal.jbool false), cs.drop 4)
        else none
      else if c = 'n' then
        if List.isPrefixOf ['u', 'l', 'l'] cs then
          some (PRes.rval JVal.jnull, cs.drop 3)
        else none
      else if c = '\x7b' then
        match parseJ fuel PMode.pobjFirst cs with
        | some (PRes.robj fs, rest) => some (PRes.rval (JVal.jobj fs), rest)
        | _ => none
      else if c = '[' then
        match parseJ fuel PMode.parrFirst cs with
        | some (PRes.rarr vs, rest) => some (PRes.rval (JVal.jarr vs), rest)
        | _ => none
      else
        match parseJNum (c :: cs) with
        | some (n, rest) => some (PRes.rval (JVal.jnum n), rest)
        | none => none
  | fuel + 1, PMode.pobjFirst, l =>
    match l.dropWhile jsonWs with
    | '\x7d' :: rest => some (PRes.robj [], rest)
    | _ => parseJ fuel PMode.pobjMember l
  | fuel + 1, PMode.pobjMember, l =>
    match l.dropWhile jsonWs with
    | '"' :: cs =>
      match parseJStr (cs.length + 1) cs with
      | none => none
      | some (key, rest) =>
        match rest.dropWhile jsonWs with
        | ':' :: rest2 =>
          match parseJ fuel PMode.pval rest2 with
          | some (PRes.rval v, rest3) =>
            match rest3.dropWhile jsonWs with
            | ',' :: rest4 =>
              match parseJ fuel PMode.pobjMember rest4 with
              | some (PRes.robj fs, rest5) =>
                some (PRes.robj (pyDictConsFront (String.mk key) v fs), rest5)
              | _ => none
            | '\x7d' :: rest4 => some (PRes.robj [(String.mk key, v)], rest4)
            | _ => none
          | _ => none
        | _ => none
    | _ => none
  | fuel + 1, PMode.parrFirst, l =>
    match l.dropWhile jsonWs with
    | ']' :: rest => some (PRes.rarr [], rest)
    | _ => parseJ fuel PMode.parrMember l
  | fuel + 1, PMode.parrMember, l =>
    match parseJ fuel PMode.pval l with
    | some (PRes.rval v, rest) =>
      match rest.dropWhile jsonWs with
      | ',' :: rest2 =>
        match parseJ fuel PMode.parrMember rest2 with
        | some (PRes.rarr vs, rest3) => some (PRes.rarr (v :: vs), rest3)
        | _ => none
      | ']' :: rest2 => some (PRes.rarr [v], rest2)
      | _ => none
    | _ => none

/-- Models Python `json.loads` on the fragment described above: one value,
surrounded only by whitespace; `none` models `json.JSONDecodeError`. -/
def jsonLoads (s : String) : Option JVal :=
  match parseJ (s.data.length + 2) PMode.pval s.data with
  | some (PRes.rval v, rest) => if (rest.dropWhile jsonWs).isEmpty then some v else none
  | _ => none

/-- Python exceptions that escape `generate_soap` to its caller. -/
inductive PyRaise where
  | formatKeyError

/-- Models the outcome of `SOAP_GENERATION_PROMPT.format(transcript=...)`
(gemini_llm.py line 419).  The template contains, besides the
`{transcript}` placeholder, the literal braces of its embedded example
output (lines 147 and 152): `str.format` parses the `{` of line 147 as
opening a replacement field whose field name is the text up to the first
`:` — the characters `\n  "Subjective"` — and, as that name is not among the
keyword arguments, raises `KeyError`.  The call sits before the `try` block
(line 424), so the exception escapes `generate_soap` for every non-empty
transcript, regardless of the transcript's content. -/
def soapPromptFormat (_transcript : String) : Except PyRaise String :=
  Except.error PyRaise.formatKeyError

/-- The retry loop of `generate_soap` (gemini_llm.py lines 425-480), one list
entry per remaining attempt; in the source this code is reachable only if the
prompt `.format` call succeeded.  `Except.error n` models the re-`raise` on
the final attempt (lines 471, 476) escaping the loop after `n` model calls.
A successfully parsed non-object value reaches `result.keys()` /
`validate_soap_json` which raise on non-dicts (`AttributeError`/`TypeError`),
handled by the generic attempt-level `except` (lines 473-476), i.e. exactly
like a model exception; a `json.JSONDecodeError` triggers the salvage branch
(lines 460-471). -/
def gsAttempts (oracle : Nat → OracleResult) (t : String) :
    List Nat → Except Nat (SoapDict × Nat)
  | [] => Except.ok (_empty_soap_note, 0)
  | a :: rest =>
    match oracle a with
    | OracleResult.exn =>
      if rest.isEmpty then Except.error 1
      else addCall (gsAttempts oracle t rest)
    | OracleResult.resp s =>
      if s = "" then addCall (gsAttempts oracle t rest)
      else
        let text := clean_json_response (pyStrip s)
        match jsonLoads text with
        | some (JVal.jobj d) => Except.ok ((validate_soap_json d).2, 1)
        | some _ =>
          if rest.isEmpty then Except.error 1
          else addCall (gsAttempts oracle t rest)
        | none =>
          match _salvage_json text with
          | some r => Except.ok (r, 1)
          | none =>
            if rest.isEmpty then Except.error 1
            else addCall (gsAttempts oracle t rest)

/-- Embedding of `generate_soap` (gemini_llm.py lines 396-484), returning the
note and the number of model calls, or the Python exception that escapes to
the caller.  The empty-transcript check (lines 411-413) precedes the prompt
formatting; for any other input the `.format` call at line 419 raises (see
`soapPromptFormat`) before the `try` block, so the retry loop and its
fallbacks are dead code in the source as written.  Had the loop been
reached, an exception escaping it would have been absorbed to the canonical
empty note by the outer handler (lines 482-484). -/
def generate_soap (oracle : Nat → OracleResult) (transcript : String) :
    Except PyRaise (SoapDict × Nat) :=
  if pyStrip transcript = "" then Except.ok (_empty_soap_note, 0)
  else
    match soapPromptFormat (preprocess_transcript transcript) with
    | Except.error e => Except.error e
    | Except.ok _ =>
      match gsAttempts oracle (preprocess_transcript transcript) [0, 1] with
      | Except.ok r => Except.ok r
      | Except.error n => Except.ok (_empty_soap_note, n)

/-! Helper lemmas (shared infrastructure; none of these is a claim's
theorem, witness or counterexample). -/

theorem validate_correction_fst_true {a b : String}
    (h : (validate_correction a b).1 = true) : tokenize a = tokenize b := by
  by_cases he : tokenize a = tokenize b
  · exact he
  · unfold validate_correction at h
    rw [if_neg he] at h
    simp at h

theorem cdAttempts_ok (oracle : Nat → OracleResult) (t orig : String) :
    ∀ (l : List Nat) (r : String) (n : Nat),
      cdAttempts oracle t orig l = Except.ok (r, n) →
      r = orig ∨ tokenize r = tokenize t := by
  intro l
  induction l with
  | nil =>
    intro r n h
    simp only [cdAttempts] at h
    injection h with h2
    exact Or.inl (congrArg Prod.fst h2).symm
  | cons a rest ih =>
    intro r n h
    simp only [cdAttempts] at h
    split at h
    · split at h
      · exact absurd h (by simp)
      · cases hx : cdAttempts oracle t orig rest with
        | error m => rw [hx] at h; simp [addCall] at h
        | ok p =>
          obtain ⟨r2, n2⟩ := p
          rw [hx] at h
          simp only [addCall] at h
          injection h with h2
          cases h2
          exact ih _ _ hx
    · split at h
      · cases hx : cdAttempts oracle t orig rest with
        | error m => rw [hx] at h; simp [addCall] at h
        | ok p =>
          obtain ⟨r2, n2⟩ := p
          rw [hx] at h
          simp only [addCall] at h
          injection h with h2
          cases h2
          exact ih _ _ hx
      · split at h
        · rename_i s _ hv
          injection h with h2
          cases h2
          exact Or.inr (validate_correction_fst_true hv).symm
        · injection h with h2
          exact Or.inl (congrArg Prod.fst h2).symm

/-! Claim theorems. -/

/-- C3 (code bug witness): the normalizer is not idempotent.  The rule
mapping the error form `symptom` to `symptoms` also fires inside the already
correct word `symptoms`, so a second normalization pass alters the output of
a first pass: `normalize "symptom" = "symptoms"` but
`normalize "symptoms" = "symptomss"`. -/
theorem preprocess_transcript_not_idempotent :
    preprocess_transcript (preprocess_transcript "symptom") ≠
      preprocess_transcript "symptom" := by decide

/-- C4 (amended): `validate_speaker_labels` returns true exactly when the
input is not whitespace-only, at least one role marker occurs in one of the
exact forms `Doctor:`, `doctor:`, `Patient:`, `patient:`, and both markers
have a positive case-insensitive occurrence count.  (The claim's fully
case-insensitive presence condition is refuted by
`validate_speaker_labels_all_caps_rejected`.) -/
theorem validate_speaker_labels_characterization (t : String) :
    validate_speaker_labels t = true ↔
      (pyStrip t ≠ "" ∧
       (containsSub "Doctor:" t = true ∨ containsSub "doctor:" t = true ∨
        containsSub "Patient:" t = true ∨ containsSub "patient:" t = true) ∧
       0 < countSub "doctor:" (lowerStr t) ∧
       0 < countSub "patient:" (lowerStr t)) := by
  unfold validate_speaker_labels
  by_cases h1 : pyStrip t = ""
  · simp [h1]
  · simp only [h1, if_false]
    by_cases hd : containsSub "Doctor:" t = true <;>
      by_cases hd2 : containsSub "doctor:" t = true <;>
        by_cases hp : containsSub "Patient:" t = true <;>
          by_cases hp2 : containsSub "patient:" t = true <;>
            by_cases hc1 : countSub "doctor:" (lowerStr t) = 0 <;>
              by_cases hc2 : countSub "patient:" (lowerStr t) = 0 <;>
                simp_all <;> omega

/-- C4 (counterexample to the claim as stated): a transcript whose role
markers appear only in upper case has positive case-insensitive counts for
both markers, yet `validate_speaker_labels` rejects it, because its presence
gate tests only the exact forms `Doctor:`/`doctor:`/`Patient:`/`patient:`. -/
theorem validate_speaker_labels_all_caps_rejected :
    validate_speaker_labels "DOCTOR: hi PATIENT: hello" = false ∧
    0 < countSub "doctor:" (lowerStr "DOCTOR: hi PATIENT: hello") ∧
    0 < countSub "patient:" (lowerStr "DOCTOR: hi PATIENT: hello") := by decide

/-- C8 (code bug witness): for a non-empty transcript, `generate_soap`
raises to its caller — the `.format` call on the SOAP prompt template (which
contains unescaped literal braces) throws `KeyError` before the retry loop's
`try` block is entered, for every oracle behaviour and before any model
call. -/
theorem generate_soap_raises_on_nonempty_input (oracle : Nat → OracleResult) :
    generate_soap oracle "Doctor: hi Patient: hello" =
      Except.error PyRaise.formatKeyError := by
  unfold generate_soap
  rw [if_neg (by decide)]
  rfl

/-- C2: every note that `generate_soap` actually returns (for any input and
any oracle behaviour) carries exactly the four keys Subjective, Objective,
Assessment, Plan, in order, each bound to a non-empty string.  In the code
as written the only reachable successful return is the canonical all-sentinel
note for empty input, since every non-empty input raises at the prompt
formatting step (see `generate_soap_raises_on_nonempty_input`). -/
theorem generate_soap_note_structure (oracle : Nat → OracleResult) (t : String)
    (r : SoapDict × Nat) (h : generate_soap oracle t = Except.ok r) :
    r.1.map Prod.fst = required_keys ∧
      ∀ p ∈ r.1, ∃ s : String, p.2 = JVal.jstr s ∧ s ≠ "" := by
  unfold generate_soap at h
  by_cases he : pyStrip t = ""
  · rw [if_pos he] at h
    injection h with h2
    cases h2
    constructor
    · simp [_empty_soap_note, required_keys]
    · intro p hp
      simp only [_empty_soap_note, required_keys, List.map_cons, List.map_nil,
        List.mem_cons, List.not_mem_nil, or_false] at hp
      rcases hp with h | h | h | h <;>
        exact ⟨"Not discussed", by rw [h], by decide⟩
  · rw [if_neg he] at h
    exact absurd h (by simp [soapPromptFormat])

/-- C2 witness: the empty transcript makes `generate_soap` return the
canonical note, which the theorem certifies to be fully populated. -/
theorem generate_soap_note_structure_witness :
    (_empty_soap_note : SoapDict).map Prod.fst = required_keys ∧
      ∀ p ∈ (_empty_soap_note : SoapDict),
        ∃ s : String, p.2 = JVal.jstr s ∧ s ≠ "" :=
  generate_soap_note_structure (fun _ => OracleResult.exn) ""
    (_empty_soap_note, 0) rfl

theorem fenceInteriorJson_some_contains {s x : String}
    (h : fenceInteriorJson s = some x) : containsSub "```json" s = true := by
  unfold fenceInteriorJson at h
  unfold containsSub
  cases hs : splitFirstL "```json".data s.data with
  | none => rw [hs] at h; exact absurd h (by simp)
  | some p => rfl

theorem braceSpan_complete (mid : List Char) :
    braceSpan ('\x7b' :: mid ++ ['\x7d']) = some ('\x7b' :: mid ++ ['\x7d']) := by
  have h2 : (mid ++ ['\x7d']).reverse = '\x7d' :: mid.reverse := by simp
  show (match dropToCloseRev (mid ++ ['\x7d']).reverse with
    | none => none
    | some revp => some ('\x7b' :: revp.reverse)) = some ('\x7b' :: mid ++ ['\x7d'])
  rw [h2]
  show some ('\x7b' :: ('\x7d' :: mid.reverse).reverse) = some ('\x7b' :: mid ++ ['\x7d'])
  simp

/-- C5 (amended): when the raw text carries a `json`-tagged fenced block,
`clean_json_response` returns the fenced interior *stripped of surrounding
whitespace* (provided the stripped interior is a brace-delimited object, as
a JSON payload is) — not the raw interior byte-for-byte; the whitespace
around the payload inside the fence is removed.  The original byte-for-byte
claim is refuted by `clean_json_response_not_bytewise`. -/
theorem clean_json_response_fenced (text inner : String) (mid : List Char)
    (hf : fenceInteriorJson (pyStrip text) = some inner)
    (hb : (pyStrip inner).data = '\x7b' :: mid ++ ['\x7d']) :
    clean_json_response text = pyStrip inner := by
  have h1 : cleanStage1 (pyStrip text) = pyStrip inner := by
    unfold cleanStage1
    rw [fenceInteriorJson_some_contains hf]
    simp [hf]
  unfold clean_json_response
  rw [h1, hb, braceSpan_complete, ← hb]

/-- C5 (counterexample to the claim as stated): a fenced JSON block whose
interior is surrounded by newlines.  The block contents minus the fence
markers are `"\n{\"a\": 1}\n"`, but `clean_json_response` returns the
whitespace-stripped `"{\"a\": 1}"`, so the result is not byte-for-byte the
fenced interior. -/
theorem clean_json_response_not_bytewise :
    clean_json_response "```json\n\x7b\"a\": 1\x7d\n```" = "\x7b\"a\": 1\x7d" ∧
      ("\x7b\"a\": 1\x7d" : String) ≠ "\n\x7b\"a\": 1\x7d\n" := by
  constructor
  · rfl
  · decide

/-- C5 witness: the amended theorem applied to a concrete fenced block with
whitespace-padded interior. -/
theorem clean_json_response_fenced_witness :
    clean_json_response "```json \x7bx: 1\x7d ```" = "\x7bx: 1\x7d" :=
  (clean_json_response_fenced "```json \x7bx: 1\x7d ```" " \x7bx: 1\x7d "
    "x: 1".data (by rfl) (by rfl)).trans (by rfl)

/-- C9: on a pair whose token sequences are multiset-equal but ordered
differently, `validate_correction` rejects (strict ordered-sequence
equality, not multiset comparison), and both reported set differences —
the only content of its diagnostic message — are empty. -/
theorem validate_correction_rejects_reorder (o c : String)
    (hm : ((tokenize o : List String) : Multiset String) =
      ((tokenize c : List String) : Multiset String))
    (hne : tokenize o ≠ tokenize c) :
    validate_correction o c = (false, [], []) := by
  have hp : (tokenize o).Perm (tokenize c) := Multiset.coe_eq_coe.mp hm
  unfold validate_correction
  rw [if_neg hne]
  have h1 : (tokenize o).filter (fun w => decide (w ∉ tokenize c)) = [] := by
    rw [List.filter_eq_nil_iff]
    intro a ha
    simp [hp.subset ha]
  have h2 : (tokenize c).filter (fun w => decide (w ∉ tokenize o)) = [] := by
    rw [List.filter_eq_nil_iff]
    intro a ha
    simp [hp.symm.subset ha]
  rw [h1, h2]
  rfl

/-- C9 witness: `"a b"` against `"b a"` — same token multiset, different
order — is rejected with empty set-difference diagnostics. -/
theorem validate_correction_rejects_reorder_witness :
    validate_correction "a b" "b a" = (false, [], []) :=
  validate_correction_rejects_reorder "a b" "b a"
    (Multiset.coe_eq_coe.mpr (by decide)) (by decide)

theorem dictGet_dictSet_self (d : SoapDict) (k : String) (v : JVal) :
    dictGet (dictSet d k v) k = some v := by
  induction d with
  | nil => simp [dictGet, dictSet]
  | cons p rest ih =>
    obtain ⟨k0, v0⟩ := p
    by_cases h : k0 = k <;> simp [dictSet, dictGet, h, ih]

theorem dictGet_dictSet_ne (d : SoapDict) (k j : String) (v : JVal)
    (h : k ≠ j) : dictGet (dictSet d k v) j = dictGet d j := by
  induction d with
  | nil => simp [dictGet, dictSet, h]
  | cons p rest ih =>
    obtain ⟨k0, v0⟩ := p
    by_cases h0 : k0 = k
    · subst h0
      simp [dictSet, dictGet, h]
    · by_cases h1 : k0 = j
      · subst h1
        simp [dictSet, dictGet, h0, ih]
      · simp [dictSet, dictGet, h0, h1, ih]

theorem soapFill_get_self (d : SoapDict) (k : String) :
    dictGet (soapFill d k) k =
      some ((dictGet d k).getD (JVal.jstr "Not discussed")) := by
  unfold soapFill
  cases h : dictGet d k <;> simp [h, dictGet_dictSet_self]

theorem soapFill_get_ne (d : SoapDict) (k j : String) (h : k ≠ j) :
    dictGet (soapFill d k) j = dictGet d j := by
  unfold soapFill
  cases h2 : dictGet d k <;> simp [h2, dictGet_dictSet_ne _ _ _ _ h]

theorem soapRepair_get_self (d : SoapDict) (k : String) :
    dictGet (soapRepair d k) k =
      (dictGet d k).map
        (fun v => if soapValueOk v then v else JVal.jstr "Not discussed") := by
  unfold soapRepair
  cases h : dictGet d k with
  | none => simp [h]
  | some v =>
    by_cases hv : soapValueOk v <;> simp [h, hv, dictGet_dictSet_self]

theorem soapRepair_get_ne (d : SoapDict) (k j : String) (h : k ≠ j) :
    dictGet (soapRepair d k) j = dictGet d j := by
  unfold soapRepair
  cases h2 : dictGet d k with
  | none => simp [h2]
  | some v =>
    by_cases hv : soapValueOk v <;> simp [h2, hv, dictGet_dictSet_ne _ _ _ _ h]

theorem foldl_soapFill_get_notmem (L : List String) (d : SoapDict)
    (k : String) (hk : k ∉ L) :
    dictGet (L.foldl soapFill d) k = dictGet d k := by
  induction L generalizing d with
  | nil => rfl
  | cons j L2 ih =>
    simp only [List.foldl_cons]
    rw [ih _ (fun h => hk (List.mem_cons_of_mem j h))]
    exact soapFill_get_ne d j k (fun h => hk (h ▸ List.mem_cons_self j L2))

theorem foldl_soapFill_get (L : List String) (d : SoapDict) (k : String)
    (hk : k ∈ L) (hnd : L.Nodup) :
    dictGet (L.foldl soapFill d) k =
      some ((dictGet d k).getD (JVal.jstr "Not discussed")) := by
  induction L generalizing d with
  | nil => cases hk
  | cons j L2 ih =>
    simp only [List.foldl_cons]
    rcases List.mem_cons.mp hk with h | h
    · subst h
      rw [foldl_soapFill_get_notmem L2 _ k (List.nodup_cons.mp hnd).1]
      exact soapFill_get_self d k
    · have hkj : j ≠ k := by
        intro he
        exact (List.nodup_cons.mp hnd).1 (he ▸ h)
      rw [ih _ h (List.nodup_cons.mp hnd).2, soapFill_get_ne d j k hkj]

theorem foldl_soapRepair_get_notmem (L : List String) (d : SoapDict)
    (k : String) (hk : k ∉ L) :
    dictGet (L.foldl soapRepair d) k = dictGet d k := by
  induction L generalizing d with
  | nil => rfl
  | cons j L2 ih =>
    simp only [List.foldl_cons]
    rw [ih _ (fun h => hk (List.mem_cons_of_mem j h))]
    exact soapRepair_get_ne d j k (fun h => hk (h ▸ List.mem_cons_self j L2))

theorem foldl_soapRepair_get (L : List String) (d : SoapDict) (k : String)
    (hk : k ∈ L) (hnd : L.Nodup) :
    dictGet (L.foldl soapRepair d) k =
      (dictGet d k).map
        (fun v => if soapValueOk v then v else JVal.jstr "Not discussed") := by
  induction L generalizing d with
  | nil => cases hk
  | cons j L2 ih =>
    simp only [List.foldl_cons]
    rcases List.mem_cons.mp hk with h | h
    · subst h
      rw [foldl_soapRepair_get_notmem L2 _ k (List.nodup_cons.mp hnd).1]
      exact soapRepair_get_self d k
    · have hkj : j ≠ k := by
        intro he
        exact (List.nodup_cons.mp hnd).1 (he ▸ h)
      rw [ih _ h (List.nodup_cons.mp hnd).2, soapRepair_get_ne d j k hkj]

/-- C10: on a candidate mapping missing one to three of the four required
keys, `validate_soap_json` returns a mapping in which every required key is
present and holds exactly `repairedValue` of what the candidate held: the
sentinel when the key was absent, the sentinel when the present value is not
a non-empty-after-trimming string or case-insensitively equals one of
`n/a`, `na`, `none`, and the untouched original value otherwise (in
particular brevity alone never triggers replacement, since `soapValueOk`
never inspects length). -/
theorem validate_soap_json_repairs (d : SoapDict)
    (h1 : 1 ≤ missingCount d) (h2 : missingCount d ≤ 3) :
    ∀ k ∈ required_keys,
      dictGet (validate_soap_json d).2 k = some (repairedValue (dictGet d k)) := by
  intro k hk
  unfold validate_soap_json
  rw [foldl_soapRepair_get required_keys _ k hk (by decide),
    foldl_soapFill_get required_keys d k hk (by decide)]
  cases ho : dictGet d k with
  | none => simp [repairedValue, ite_self]
  | some v => rfl

/-- C10 witness: a candidate holding only a Subjective entry (three keys
missing) is repaired so that, for example, the absent Plan key carries the
sentinel. -/
theorem validate_soap_json_repairs_witness :
    dictGet (validate_soap_json [("Subjective", JVal.jstr "pt with cough")]).2
      "Plan" = some (JVal.jstr "Not discussed") :=
  (validate_soap_json_repairs [("Subjective", JVal.jstr "pt with cough")]
    (by decide) (by decide) "Plan" (by decide)).trans rfl

/-- C6: whenever the word-preservation check fails on any attempt of
`correct_diarization` — attempt 0, or attempt 1 after attempt 0 yielded an
exception or an empty response — the function immediately returns the
original, pre-normalization transcript, and the call count `i + 1` shows no
further model call is made after the failing attempt; the result is a plain
value, never an exception. -/
theorem correct_diarization_word_failure (oracle : Nat → OracleResult)
    (t : String) (i : Nat) (s : String)
    (hne : pyStrip t ≠ "") (hv : validate_speaker_labels t = true)
    (hreach : i = 0 ∨
      (i = 1 ∧ (oracle 0 = OracleResult.exn ∨ oracle 0 = OracleResult.resp "")))
    (hi : oracle i = OracleResult.resp s) (hs : s ≠ "")
    (hval : (validate_correction (preprocess_transcript t)
      (cleanIfFenced (pyStrip s))).1 = false) :
    correct_diarization oracle t = (t, i + 1) := by
  unfold correct_diarization
  rw [if_neg hne, if_pos hv]
  rcases hreach with h0 | ⟨h1, hprev⟩
  · subst h0
    simp only [cdAttempts, hi]
    rw [if_neg hs, if_neg (by simp [hval])]
  · subst h1
    rcases hprev with h | h <;>
      simp [cdAttempts, h, hi, hs, hval, addCall]

/-- C6 witness: the model drops a word on the first attempt; the function
returns the original transcript after exactly one model call. -/
theorem correct_diarization_word_failure_witness :
    correct_diarization (fun _ => OracleResult.resp "Doctor: hello patient: yes")
      "Doctor: hello there patient: yes" = ("Doctor: hello there patient: yes", 1) :=
  correct_diarization_word_failure
    (fun _ => OracleResult.resp "Doctor: hello patient: yes")
    "Doctor: hello there patient: yes" 0 "Doctor: hello patient: yes"
    (by decide) (by decide) (Or.inl rfl) rfl (by decide) (by decide)

/-- C7: if execution reaches the final retry attempt (attempt 0 raised or
returned an empty response) and the oracle raises there too, then
`correct_diarization` returns the original input transcript; being a total
function into `String × Nat`, it propagates no exception to its caller for
any oracle behaviour. -/
theorem correct_diarization_final_exn (oracle : Nat → OracleResult)
    (t : String)
    (h0 : oracle 0 = OracleResult.exn ∨ oracle 0 = OracleResult.resp "")
    (h1 : oracle 1 = OracleResult.exn) :
    (correct_diarization oracle t).1 = t := by
  unfold correct_diarization
  by_cases he : pyStrip t = ""
  · rw [if_pos he]
  · rw [if_neg he]
    by_cases hv : validate_speaker_labels t = true
    · rw [if_pos hv]
      rcases h0 with h | h <;> simp [cdAttempts, h, h1, addCall]
    · rw [if_neg hv]

/-- C7 witness: an oracle that always raises makes the function fall back to
its input. -/
theorem correct_diarization_final_exn_witness :
    (correct_diarization (fun _ => OracleResult.exn) "Doctor: a patient: b").1 =
      "Doctor: a patient: b" :=
  correct_diarization_final_exn (fun _ => OracleResult.exn)
    "Doctor: a patient: b" (Or.inl rfl) rfl

/-- C1 (amended): for every oracle behaviour and every transcript, the
result of `correct_diarization` is either the original transcript (a
fallback) or a text whose word-token sequence equals that of the
*normalized* (preprocessed) input — the word-preservation check runs against
the preprocessed transcript, not the raw input.  The original claim, that an
accepted result's tokens equal the raw input's tokens, is refuted by
`correct_diarization_accepts_normalized_tokens`. -/
theorem correct_diarization_token_preservation (oracle : Nat → OracleResult)
    (t : String) :
    (correct_diarization oracle t).1 = t ∨
      tokenize (correct_diarization oracle t).1 =
        tokenize (preprocess_transcript t) := by
  unfold correct_diarization
  by_cases h1 : pyStrip t = ""
  · rw [if_pos h1]
    exact Or.inl rfl
  · rw [if_neg h1]
    by_cases h2 : validate_speaker_labels t = true
    · rw [if_pos h2]
      cases hx : cdAttempts oracle (preprocess_transcript t) t [0, 1] with
      | error n => exact Or.inl rfl
      | ok p =>
        obtain ⟨r, n⟩ := p
        rcases cdAttempts_ok oracle (preprocess_transcript t) t [0, 1] r n hx
          with h | h
        · exact Or.inl h
        · exact Or.inr h
    · rw [if_neg h2]
      exact Or.inl rfl

/-- C1 (counterexample to the claim as stated): the input contains the ASR
error form `perscription`, which normalization rewrites to `prescription`
before the model call; the model echoes the normalized transcript, the
word-preservation check accepts it (the returned text is the model output,
not the fallback), yet the returned token sequence differs from the raw
input transcript's token sequence. -/
theorem correct_diarization_accepts_normalized_tokens :
    (correct_diarization
        (fun _ => OracleResult.resp "Doctor: prescription patient: ok")
        "Doctor: perscription patient: ok").1 =
      "Doctor: prescription patient: ok" ∧
    tokenize (correct_diarization
        (fun _ => OracleResult.resp "Doctor: prescription patient: ok")
        "Doctor: perscription patient: ok").1 ≠
      tokenize "Doctor: perscription patient: ok" := by
  constructor
  · rfl
  · decide

end Scribe
